import Mathlib

/-!
Verification development for the retrospective-analysis repository.

The repository analyses spreadsheet survey exports: a Loader discovers
matching files in a directory and keys each parsed tabular dataset by the
first whitespace-delimited token of its filename; a Trend Aggregator
computes, per period and per answer value, the percentage of non-missing
responses; a Chronology Resolver maps month names to sortable ordinals.

The definitions below are a shallow embedding of the functions
load_retrospective_data, extract_month_order, analyze_question_trends and
the question-category keyword buckets shared by retrospective_analyzer.py
and demo_analysis.py.  Machine floats are modelled by exact rationals with
explicit rounding to two decimal places; a tabular dataset is modelled
column-wise as named columns of optional cell values, matching the two
operations the source performs on a frame (column-name membership and
column extraction).
-/

namespace Retro

/-- DataFrame models the pandas frame produced by read_excel: a list of
named columns, each an ordered list of optional cells (none models NaN,
i.e. a missing answer). -/
structure DataFrame where
  cols : List (String × List (Option String))
  deriving DecidableEq, Repr

/-- Column-name sequence of a frame, modelling df.columns. -/
def DataFrame.columns (df : DataFrame) : List String :=
  df.cols.map Prod.fst

/-- Column extraction, modelling df[c]: the cell list of the first column
named c, or the empty series when the name is absent. -/
def DataFrame.getCol (df : DataFrame) (c : String) : List (Option String) :=
  (((df.cols.find? (fun p => p.1 = c)).map Prod.snd).getD [])

/-- Missing-value removal on a series, modelling Series.dropna. -/
def dropna (cells : List (Option String)) : List String :=
  cells.filterMap id

/-- Distinct values of a list in order of first appearance. -/
def distinctVals : List String → List String
  | [] => []
  | x :: xs => x :: distinctVals (xs.filter (fun y => ¬ (y = x)))
termination_by l => l.length
decreasing_by
  exact Nat.lt_succ_of_le (List.length_filter_le _ _)

/-- Occurrence counts of the distinct non-missing values of a series,
modelling Series.value_counts (which excludes NaN).  Pandas additionally
sorts the counts in descending order; that sort only affects dict
iteration order, which nothing verified here observes, so the embedding
keeps first-appearance order. -/
def value_counts (cells : List (Option String)) : List (String × Nat) :=
  (distinctVals (dropna cells)).map (fun v => (v, (dropna cells).count v))

/-- Rounding of a rational to two decimal places, modelling round(x, 2) as
applied by Series.round(2). -/
def round2 (q : ℚ) : ℚ :=
  ((round (q * 100) : ℤ) : ℚ) / 100

/-- Trend aggregation, embedding analyze_question_trends: for each loaded
period whose frame contains the target column, drop missing cells, and
when at least one response remains map every distinct answer to its
percentage of the non-missing count, rounded to two decimals. -/
def analyze_question_trends (data : List (String × DataFrame))
    (question_column : String) : List (String × List (String × ℚ)) :=
  data.filterMap (fun md =>
    let month := md.1
    let df := md.2
    if question_column ∈ df.columns then
      let counts := value_counts (df.getCol question_column)
      let total_responses := (dropna (df.getCol question_column)).length
      if 0 < total_responses then
        some (month, counts.map
          (fun vc => (vc.1, round2 ((vc.2 : ℚ) / (total_responses : ℚ) * 100))))
      else none
    else none)

/-- Match of a pattern against the front of a character list. -/
def leadMatch : List Char → List Char → Bool
  | [], _ => true
  | _ :: _, [] => false
  | a :: as, b :: bs => a = b && leadMatch as bs

/-- Occurrence of a pattern inside a character list. -/
def hasSub (pat : List Char) : List Char → Bool
  | [] => leadMatch pat []
  | c :: cs => leadMatch pat (c :: cs) || hasSub pat cs

/-- Substring containment on strings, modelling the Python expression
pat in s. -/
def strContains (s pat : String) : Bool :=
  hasSub pat.toList s.toList

/-- Suffix test on strings, modelling str.endswith. -/
def endswith (s suffix : String) : Bool :=
  leadMatch suffix.toList.reverse s.toList.reverse

/-- Loader file selection, embedding the list comprehension over
os.listdir: keep names ending in the spreadsheet extension and containing
the marker substring.  A directory entry pairs a filename with some parsed
frame, or none when read_excel raises for that file. -/
def excel_files (dir : List (String × Option DataFrame)) :
    List (String × Option DataFrame) :=
  dir.filter (fun p => endswith p.1 ".xlsx" && strContains p.1 "Retrospective")

/-- First whitespace-delimited token of a filename, modelling
file.split()[0]: Python split with no argument splits on maximal
whitespace runs and drops empty chunks, so the first token is the maximal
run of non-whitespace characters after any leading whitespace. -/
def firstToken (file : String) : String :=
  String.mk ((file.toList.dropWhile Char.isWhitespace).takeWhile
    (fun c => ¬ c.isWhitespace))

/-- Insertion into a Python dict modelled as an association list: an
existing key keeps its position but takes the new value, a new key is
appended. -/
def dictInsert : List (String × DataFrame) → String → DataFrame →
    List (String × DataFrame)
  | [], k, v => [(k, v)]
  | (k', v') :: rest, k, v =>
    if k = k' then (k, v) :: rest else (k', v') :: dictInsert rest k v

/-- Loader loop over the selected files, embedding the try/except body of
load_retrospective_data: a parsed file is inserted under the first token
of its name, a failing file is reported (its name appended to the error
list) and skipped.  Totality of this function models that the caught
per-file failure does not propagate out of the loader. -/
def loadLoop (acc : List (String × DataFrame)) (errs : List String) :
    List (String × Option DataFrame) →
    List (String × DataFrame) × List String
  | [] => (acc, errs)
  | (file, some df) :: rest => loadLoop (dictInsert acc (firstToken file) df) errs rest
  | (file, none) :: rest => loadLoop acc (errs ++ [file]) rest

/-- Loader, embedding load_retrospective_data over an abstract directory
listing: returns the loaded mapping together with the list of reported
(failing) filenames. -/
def load_retrospective_data (dir : List (String × Option DataFrame)) :
    List (String × DataFrame) × List String :=
  loadLoop [] [] (excel_files dir)

/-- Keyword lists of the five named question-category buckets of
retrospective_analyzer.py. -/
def category_keywords : List (String × List String) :=
  [("Team & Organization", ["team", "scrum", "org", "director"]),
   ("AI & Efficiency", ["ai", "efficiency", "productivity"]),
   ("Release Planning", ["planning", "commitment", "timeline"]),
   ("Agile Ceremonies", ["sprint", "standup", "retrospective", "ceremony"]),
   ("Process & Support", ["process", "support", "capacity", "jira"])]

/-- Lowercasing of a string, modelling str.lower() character by
character. -/
def toLowerStr (s : String) : String :=
  String.mk (s.toList.map Char.toLower)

/-- Membership test of one column in one keyword bucket, embedding
any(keyword in col.lower() for keyword in keywords). -/
def matchesCategory (keywords : List String) (col : String) : Bool :=
  keywords.any (fun keyword => strContains (toLowerStr col) keyword)

/-- Named bucket contents for a list of available questions, embedding the
five well-formed comprehensions of the question_categories dict literal.
The sixth entry of that literal, the Other bucket, is malformed in the
source (it reads question_categories inside its own defining expression
and its brackets are unbalanced) and therefore has no embedding. -/
def named_question_categories (available_questions : List String) :
    List (String × List String) :=
  category_keywords.map
    (fun nk => (nk.1, available_questions.filter (fun col => matchesCategory nk.2 col)))

/-- Modelled from the spec: the intended question_categories mapping,
whose Other bucket the source fails to build.  Section 9 of the spec gives
the intent: every available question matching no named bucket falls into a
final catch-all Other bucket. -/
def question_categories_intended (available_questions : List String) :
    List (String × List String) :=
  named_question_categories available_questions ++
    [("Other", available_questions.filter
      (fun col => ¬ (category_keywords.any (fun nk => matchesCategory nk.2 col))))]

/-- Fixed month table of extract_month_order. -/
def month_mapping : List (String × Nat) :=
  [("January", 1), ("February", 2), ("March", 3), ("April", 4),
   ("May", 5), ("June", 6), ("July", 7), ("August", 8),
   ("September", 9), ("October", 10), ("November", 11), ("December", 12)]

/-- Chronology resolver, embedding extract_month_order: dictionary lookup
with default 13. -/
def extract_month_order (month_name : String) : Nat :=
  (month_mapping.lookup month_name).getD 13

/-- Frame of the January example period of the spec. -/
def dfJan : DataFrame := ⟨[("Q", [some "Yes", some "Yes", some "No"])]⟩

/-- Frame of the March example period of the spec. -/
def dfMar : DataFrame := ⟨[("Q", [some "No", none])]⟩

/-- Loaded mapping of the end-to-end example of the spec. -/
def exData : List (String × DataFrame) := [("January", dfJan), ("March", dfMar)]

/-- Frame whose target column splits seven non-missing rows evenly among
seven distinct answers. -/
def df7 : DataFrame :=
  ⟨[("Q", [some "A1", some "A2", some "A3", some "A4",
           some "A5", some "A6", some "A7"])]⟩

/-- Loaded mapping holding only the seven-way-split frame. -/
def exData7 : List (String × DataFrame) := [("July", df7)]

/-- Frame whose target column holds twenty thousand copies of one answer
and a single occurrence of another. -/
def dfZero : DataFrame :=
  ⟨[("Q", List.replicate 20000 (some "A") ++ [some "B"])]⟩

/-- Loaded mapping holding only the rare-answer frame. -/
def exDataZero : List (String × DataFrame) := [("M", dfZero)]

/-- Frame of a single parsed example file. -/
def dfOk : DataFrame := ⟨[("Q", [some "Yes"])]⟩

/-- Directory listing with one matching file that parses, one matching
file that fails to parse, and one file the loader must ignore. -/
def exDir : List (String × Option DataFrame) :=
  [("January Retrospective.xlsx", some dfOk),
   ("March Retrospective.xlsx", none),
   ("notes.txt", some dfOk)]

@[simp] theorem distinctVals_nil : distinctVals [] = [] := by
  simp [distinctVals]

@[simp] theorem distinctVals_cons (x : String) (xs : List String) :
    distinctVals (x :: xs) = x :: distinctVals (xs.filter (fun y => ¬ (y = x))) := by
  simp [distinctVals]

theorem mem_distinctVals (v : String) (l : List String) :
    v ∈ distinctVals l ↔ v ∈ l := by
  induction l using distinctVals.induct with
  | case1 => simp
  | case2 x xs ih =>
    simp only [distinctVals_cons, List.mem_cons, ih, List.mem_filter]
    by_cases hv : v = x <;> simp [hv]

theorem lookup_map_self {β : Type} (l : List String) (f : String → β) (v : String)
    (hv : v ∈ l) :
    (l.map (fun u => (u, f u))).lookup v = some (f v) := by
  induction l with
  | nil => simp at hv
  | cons u l ih =>
    by_cases h : v = u
    · subst h
      simp [List.lookup]
    · have hbeq : (v == u) = false := by simpa using h
      rcases List.mem_cons.mp hv with h' | h'
      · exact absurd h' h
      · simp only [List.map_cons, List.lookup, hbeq]
        exact ih h'

theorem count_filter_ne (x v : String) (l : List String) (h : ¬ (v = x)) :
    (l.filter (fun y => ¬ (y = x))).count v = l.count v := by
  refine List.count_filter ?_
  simpa using h

theorem sum_count_distinctVals (l : List String) :
    ((distinctVals l).map (fun u => l.count u)).sum = l.length := by
  induction l using distinctVals.induct with
  | case1 => simp
  | case2 x xs ih =>
    have hmap :
        (distinctVals (xs.filter (fun y => ¬ (y = x)))).map
            (fun u => (x :: xs).count u) =
          (distinctVals (xs.filter (fun y => ¬ (y = x)))).map
            (fun u => (xs.filter (fun y => ¬ (y = x))).count u) := by
      refine List.map_congr_left (fun u hu => ?_)
      have humem : u ∈ xs.filter (fun y => ¬ (y = x)) :=
        (mem_distinctVals u _).mp hu
      have hune : ¬ (u = x) := by
        have hf := List.mem_filter.mp humem
        simpa using hf.2
      have hxu : (x == u) = false := by
        rw [beq_eq_false_iff_ne]
        intro hh
        exact hune hh.symm
      rw [count_filter_ne x u xs hune, List.count_cons, hxu]
      simp
    have hlen : xs.length =
        xs.count x + (xs.filter (fun y => ¬ (y = x))).length := by
      have hsplit := List.length_eq_countP_add_countP (fun y => y == x) xs
      have h1 : List.countP (fun y => y == x) xs = xs.count x := by
        simp [List.count, List.countP_congr]
      have h2 : List.countP (fun a => decide ¬((fun y => y == x) a = true)) xs =
          (xs.filter (fun y => ¬ (y = x))).length := by
        rw [← List.countP_eq_length_filter]
        refine List.countP_congr (fun a _ => ?_)
        simp
      rw [h1, h2] at hsplit
      exact hsplit
    have hx : (x == x) = true := beq_self_eq_true x
    rw [distinctVals_cons, List.map_cons, List.sum_cons, hmap, ih,
      List.count_cons, hx, List.length_cons]
    simp only [if_true]
    omega

theorem round_rat_of_bounds (q : ℚ) (n : ℤ) (h1 : (n : ℚ) ≤ q + 1/2)
    (h2 : q + 1/2 < (n : ℚ) + 1) : round q = n := by
  rw [round_eq]
  exact Int.floor_eq_iff.mpr ⟨h1, h2⟩

theorem round2_of_bounds (q : ℚ) (n : ℤ) (h1 : (n : ℚ) ≤ q * 100 + 1/2)
    (h2 : q * 100 + 1/2 < (n : ℚ) + 1) : round2 q = (n : ℚ) / 100 := by
  rw [round2, round_rat_of_bounds (q * 100) n h1 h2]

theorem abs_round2_sub_le (q : ℚ) : |round2 q - q| ≤ 1/200 := by
  have h := abs_sub_round (q * 100)
  have heq : round2 q - q = -((q * 100 - ((round (q * 100) : ℤ) : ℚ)) / 100) := by
    rw [round2]
    ring
  rw [heq, abs_neg, abs_div]
  have h100 : |(100 : ℚ)| = 100 := by norm_num
  rw [h100]
  linarith

theorem lookup_eq_none_of_not_mem (l : List (String × Nat)) (s : String)
    (h : s ∉ l.map Prod.fst) : l.lookup s = none := by
  induction l with
  | nil => rfl
  | cons p l ih =>
    simp only [List.map_cons, List.mem_cons] at h
    push_neg at h
    have hbeq : (s == p.1) = false := by simpa using h.1
    obtain ⟨k, v⟩ := p
    simp only [List.lookup, hbeq]
    exact ih h.2

theorem round2_nonneg (q : ℚ) (h : 0 ≤ q) : 0 ≤ round2 q := by
  rw [round2]
  refine div_nonneg ?_ (by norm_num)
  have hq : (0 : ℚ) ≤ q * 100 + 1/2 := by linarith
  rw [round_eq]
  exact_mod_cast Int.cast_nonneg.mpr (Int.floor_nonneg.mpr hq)

theorem analyze_mem_iff (data : List (String × DataFrame)) (q month : String)
    (inner : List (String × ℚ)) :
    (month, inner) ∈ analyze_question_trends data q ↔
      ∃ df, (month, df) ∈ data ∧ q ∈ df.columns ∧
        0 < (dropna (df.getCol q)).length ∧
        inner = (value_counts (df.getCol q)).map
          (fun vc => (vc.1, round2 ((vc.2 : ℚ) /
            (((dropna (df.getCol q)).length : ℕ) : ℚ) * 100))) := by
  simp only [analyze_question_trends, List.mem_filterMap]
  constructor
  · rintro ⟨⟨m, df⟩, hmem, hf⟩
    dsimp only at hf
    split_ifs at hf with hcol hpos
    · rw [Option.some.injEq, Prod.mk.injEq] at hf
      obtain ⟨rfl, rfl⟩ := hf
      exact ⟨df, hmem, hcol, hpos, rfl⟩
  · rintro ⟨df, hmem, hcol, hpos, rfl⟩
    refine ⟨(month, df), hmem, ?_⟩
    dsimp only
    rw [if_pos hcol, if_pos hpos]

/-- C4: the chronology resolver is a pure total function taking each of
the twelve full English month names to its calendar number 1 through 12
and every other string to the sentinel 13; in particular
resolve March < resolve November < resolve Unlabeled, and Unlabeled1 and
Unlabeled2 both resolve to 13. -/
theorem extract_month_order_spec :
    (∀ m n, (m, n) ∈ month_mapping → extract_month_order m = n) ∧
    (∀ s : String, s ∉ month_mapping.map Prod.fst → extract_month_order s = 13) ∧
    extract_month_order "March" < extract_month_order "November" ∧
    extract_month_order "November" < extract_month_order "Unlabeled" ∧
    extract_month_order "Unlabeled1" = 13 ∧
    extract_month_order "Unlabeled2" = 13 := by
  refine ⟨?_, ?_, by decide, by decide, by decide, by decide⟩
  · intro m n h
    fin_cases h <;> decide
  · intro s h
    rw [extract_month_order, lookup_eq_none_of_not_mem month_mapping s h]
    rfl

/-- Witness for C4 at the concrete inputs January and NotAMonth. -/
theorem extract_month_order_spec_witness :
    extract_month_order "January" = 1 ∧ extract_month_order "NotAMonth" = 13 :=
  ⟨extract_month_order_spec.1 "January" 1 (by decide),
   extract_month_order_spec.2.1 "NotAMonth" (by decide)⟩

/-- C1: for every loaded mapping and target column, each period whose
frame contains the column with at least one non-missing value receives an
answer map taking every distinct non-missing answer value to
round(count / non-missing-count * 100, 2). -/
theorem analyze_question_trends_percentages
    (data : List (String × DataFrame)) (q month : String) (df : DataFrame)
    (hmem : (month, df) ∈ data) (hcol : q ∈ df.columns)
    (hpos : 0 < (dropna (df.getCol q)).length) :
    ∃ inner, (month, inner) ∈ analyze_question_trends data q ∧
      ∀ v, v ∈ dropna (df.getCol q) →
        inner.lookup v = some (round2 (((dropna (df.getCol q)).count v : ℚ) /
          (((dropna (df.getCol q)).length : ℕ) : ℚ) * 100)) := by
  refine ⟨_, (analyze_mem_iff data q month _).mpr ⟨df, hmem, hcol, hpos, rfl⟩, ?_⟩
  intro v hv
  rw [value_counts, List.map_map]
  exact lookup_map_self _
    (fun u => round2 (((dropna (df.getCol q)).count u : ℚ) /
      (((dropna (df.getCol q)).length : ℕ) : ℚ) * 100)) v
    ((mem_distinctVals v _).mpr hv)

/-- Witness for C1 at the January period of the example mapping. -/
theorem analyze_question_trends_percentages_witness :
    ∃ inner, ("January", inner) ∈ analyze_question_trends exData "Q" ∧
      ∀ v, v ∈ dropna (dfJan.getCol "Q") →
        inner.lookup v = some (round2 (((dropna (dfJan.getCol "Q")).count v : ℚ) /
          (((dropna (dfJan.getCol "Q")).length : ℕ) : ℚ) * 100)) :=
  analyze_question_trends_percentages exData "Q" "January" dfJan
    (by decide) (by decide) (by decide)

/-- C2: a period label is a key of the trend map exactly when some loaded
frame under that label contains the target column with a strictly
positive count of non-missing values; a period with the column present
but no non-missing value is omitted entirely, so the percentage divisor
is never zero. -/
theorem analyze_question_trends_keys (data : List (String × DataFrame))
    (q month : String) :
    month ∈ (analyze_question_trends data q).map Prod.fst ↔
      ∃ df, (month, df) ∈ data ∧ q ∈ df.columns ∧
        0 < (dropna (df.getCol q)).length := by
  constructor
  · intro h
    obtain ⟨⟨m, inner⟩, hmem, heq⟩ := List.mem_map.mp h
    dsimp only at heq
    subst heq
    obtain ⟨df, h1, h2, h3, _⟩ := (analyze_mem_iff data q m inner).mp hmem
    exact ⟨df, h1, h2, h3⟩
  · rintro ⟨df, h1, h2, h3⟩
    refine List.mem_map.mpr ⟨(month, (value_counts (df.getCol q)).map
      (fun vc => (vc.1, round2 ((vc.2 : ℚ) /
        (((dropna (df.getCol q)).length : ℕ) : ℚ) * 100)))), ?_, rfl⟩
    exact (analyze_mem_iff data q month _).mpr ⟨df, h1, h2, h3, rfl⟩

theorem distinctVals_replicate_append (n : ℕ) (a : String) (l : List String) :
    distinctVals (List.replicate (n+1) a ++ l) =
      a :: distinctVals (l.filter (fun y => ¬ (y = a))) := by
  rw [List.replicate_succ, List.cons_append, distinctVals_cons,
    List.filter_append, List.filter_replicate]
  simp

theorem dfZero_col :
    dfZero.getCol "Q" = List.replicate 20000 (some "A") ++ [some "B"] := rfl

theorem dropna_dfZero :
    dropna (dfZero.getCol "Q") = List.replicate 20000 "A" ++ ["B"] := by
  rw [dfZero_col, dropna, List.filterMap_append, List.filterMap_replicate]
  rfl

theorem dfZero_len : (dropna (dfZero.getCol "Q")).length = 20001 := by
  rw [dropna_dfZero, List.length_append, List.length_replicate]
  rfl

theorem distinct_dfZero :
    distinctVals (dropna (dfZero.getCol "Q")) = ["A", "B"] := by
  rw [dropna_dfZero, show (20000 : ℕ) = 19999 + 1 by norm_num,
    distinctVals_replicate_append,
    show (["B"].filter (fun y => ¬ (y = "A"))) = ["B"] by rfl]
  rw [distinctVals_cons, show (List.filter (fun y => ¬ (y = "B")) []) = [] by rfl,
    distinctVals_nil]

theorem countB_dfZero : (dropna (dfZero.getCol "Q")).count "B" = 1 := by
  rw [dropna_dfZero, List.count_append, List.count_replicate]
  rfl

theorem countA_dfZero : (dropna (dfZero.getCol "Q")).count "A" = 20000 := by
  rw [dropna_dfZero, List.count_append, List.count_replicate]
  rfl

theorem value_counts_dfZero :
    value_counts (dfZero.getCol "Q") = [("A", 20000), ("B", 1)] := by
  rw [value_counts, distinct_dfZero]
  rw [List.map_cons, List.map_cons, List.map_nil, countA_dfZero, countB_dfZero]

theorem list_sum_map_sub {α : Type} (S : List α) (f g : α → ℚ) :
    (S.map (fun u => f u - g u)).sum = (S.map f).sum - (S.map g).sum := by
  induction S with
  | nil => simp
  | cons x t ih =>
    simp only [List.map_cons, List.sum_cons, ih]
    ring

theorem list_abs_sum_le {α : Type} (S : List α) (f : α → ℚ) (b : ℚ)
    (h : ∀ u ∈ S, |f u| ≤ b) : |(S.map f).sum| ≤ (S.length : ℚ) * b := by
  induction S with
  | nil => simp
  | cons x t ih =>
    simp only [List.map_cons, List.sum_cons, List.length_cons]
    have h1 : |f x + (t.map f).sum| ≤ |f x| + |(t.map f).sum| := abs_add _ _
    have h2 : |f x| ≤ b := h x (List.mem_cons_self x t)
    have h3 : |(t.map f).sum| ≤ (t.length : ℚ) * b :=
      ih (fun u hu => h u (List.mem_cons.mpr (Or.inr hu)))
    have h4 : ((t.length + 1 : ℕ) : ℚ) = (t.length : ℚ) + 1 := by push_cast; ring
    rw [h4]
    calc |f x + (t.map f).sum| ≤ |f x| + |(t.map f).sum| := h1
      _ ≤ b + (t.length : ℚ) * b := add_le_add h2 h3
      _ = ((t.length : ℚ) + 1) * b := by ring

theorem list_sum_map_cast {α : Type} (S : List α) (g : α → ℕ) :
    (S.map (fun u => ((g u : ℕ) : ℚ))).sum = (((S.map g).sum : ℕ) : ℚ) := by
  induction S with
  | nil => simp
  | cons x t ih => simp [ih]

theorem analyze_exData_eval :
    analyze_question_trends exData "Q" =
      [("January", [("Yes", 66.67), ("No", 33.33)]), ("March", [("No", 100)])] := by
  have h1 : round2 ((2 : ℚ) / 3 * 100) = 6667/100 :=
    round2_of_bounds _ 6667 (by norm_num) (by norm_num)
  have h2 : round2 ((100 : ℚ) / 3) = 3333/100 :=
    round2_of_bounds _ 3333 (by norm_num) (by norm_num)
  have h3 : round2 (100 : ℚ) = 100 := by
    rw [round2_of_bounds 100 10000 (by norm_num) (by norm_num)]
    norm_num
  simp [analyze_question_trends, exData, dfJan, dfMar, DataFrame.columns,
    DataFrame.getCol, dropna, value_counts, distinctVals, List.count_cons,
    h1, h2, h3]
  refine ⟨by norm_num, ?_⟩
  rw [show ((3:ℚ)⁻¹ * 100) = 100/3 by ring, h2]
  norm_num

theorem analyze_exData7_eval :
    analyze_question_trends exData7 "Q" =
      [("July", [("A1", 1429/100), ("A2", 1429/100), ("A3", 1429/100),
                 ("A4", 1429/100), ("A5", 1429/100), ("A6", 1429/100),
                 ("A7", 1429/100)])] := by
  have h : round2 ((100 : ℚ) / 7) = 1429/100 :=
    round2_of_bounds _ 1429 (by norm_num) (by norm_num)
  have h' : round2 ((7 : ℚ)⁻¹ * 100) = 1429/100 := by
    rw [show ((7:ℚ)⁻¹ * 100) = 100/7 by ring, h]
  simp [analyze_question_trends, exData7, df7, DataFrame.columns,
    DataFrame.getCol, dropna, value_counts, distinctVals, List.count_cons,
    h, h']

/-- C5: on the example mapping where January holds the answers Yes, Yes,
No and March holds No plus one missing cell, the trend aggregation for
column Q returns exactly January mapping Yes to 66.67 and No to 33.33,
and March mapping No to 100. -/
theorem trend_map_end_to_end :
    analyze_question_trends exData "Q" =
      [("January", [("Yes", 66.67), ("No", 33.33)]), ("March", [("No", 100)])] :=
  analyze_exData_eval

/-- C3 amended: the rounded percentages of a period sum to 100 within a
tolerance of 0.005 per distinct answer value (k/200 for k values), which
is the tight bound; the tolerance 0.02 claimed for up to 50 values is
exceeded already by a seven-way even split. -/
theorem analyze_sum_bound (data : List (String × DataFrame)) (q month : String)
    (inner : List (String × ℚ))
    (h : (month, inner) ∈ analyze_question_trends data q) :
    |(inner.map Prod.snd).sum - 100| ≤ (inner.length : ℚ) / 200 := by
  obtain ⟨df, hmem, hcol, hpos, rfl⟩ := (analyze_mem_iff data q month inner).mp h
  rw [value_counts]
  simp only [List.map_map, List.length_map]
  show |((distinctVals (dropna (df.getCol q))).map
      (fun u => round2 (((dropna (df.getCol q)).count u : ℚ) /
        (((dropna (df.getCol q)).length : ℕ) : ℚ) * 100))).sum - 100| ≤
    ((distinctVals (dropna (df.getCol q))).length : ℚ) / 200
  set xs := dropna (df.getCol q) with hxs
  set S := distinctVals xs with hS
  have hNpos : (0:ℚ) < ((xs.length : ℕ) : ℚ) := by exact_mod_cast hpos
  have hsum_exact :
      (S.map (fun u => ((xs.count u : ℚ) / ((xs.length : ℕ) : ℚ) * 100))).sum = 100 := by
    have h1 : (S.map (fun u => ((xs.count u : ℚ) / ((xs.length : ℕ) : ℚ) * 100))).sum
        = (S.map (fun u => (xs.count u : ℚ))).sum * (100 / ((xs.length : ℕ) : ℚ)) := by
      rw [← List.sum_map_mul_right]
      refine congrArg List.sum ?_
      refine List.map_congr_left (fun u hu => ?_)
      ring
    rw [h1, list_sum_map_cast]
    rw [hS, sum_count_distinctVals]
    field_simp
  have hdiff : (S.map (fun u => round2 ((xs.count u : ℚ) /
      ((xs.length : ℕ) : ℚ) * 100))).sum - 100
      = (S.map (fun u => round2 ((xs.count u : ℚ) / ((xs.length : ℕ) : ℚ) * 100) -
          (xs.count u : ℚ) / ((xs.length : ℕ) : ℚ) * 100)).sum := by
    rw [list_sum_map_sub, hsum_exact]
  rw [hdiff]
  have hb := list_abs_sum_le S
    (fun u => round2 ((xs.count u : ℚ) / ((xs.length : ℕ) : ℚ) * 100) -
      (xs.count u : ℚ) / ((xs.length : ℕ) : ℚ) * 100) (1/200)
    (fun u hu => abs_round2_sub_le _)
  calc _ ≤ (S.length : ℚ) * (1/200) := hb
    _ = (S.length : ℚ) / 200 := by ring

/-- C3 counterexample: in the seven-way even split the seven rounded
percentages each equal 14.29 and sum to 100.03, which misses 100 by 0.03,
outside the claimed tolerance of 0.02, although only seven distinct
values (at most about fifty) occur. -/
theorem trend_sum_tolerance_counterexample :
    ∃ inner, ("July", inner) ∈ analyze_question_trends exData7 "Q" ∧
      inner.length ≤ 50 ∧
      (inner.map Prod.snd).sum = 10003/100 ∧
      ¬ |(inner.map Prod.snd).sum - 100| ≤ 2/100 := by
  refine ⟨[("A1", 1429/100), ("A2", 1429/100), ("A3", 1429/100),
           ("A4", 1429/100), ("A5", 1429/100), ("A6", 1429/100),
           ("A7", 1429/100)], ?_, ?_, ?_, ?_⟩
  · rw [analyze_exData7_eval]
    exact List.mem_singleton.mpr rfl
  · simp
  · norm_num
  · norm_num
    rw [abs_of_pos (by norm_num : (0:ℚ) < 3/100)]
    norm_num

/-- Witness for C3 amended at the January period of the example
mapping. -/
theorem analyze_sum_bound_witness :
    |(([("Yes", (66.67 : ℚ)), ("No", 33.33)].map Prod.snd).sum - 100)| ≤
      (([("Yes", (66.67 : ℚ)), ("No", 33.33)].length : ℚ)) / 200 :=
  analyze_sum_bound exData "Q" "January" [("Yes", 66.67), ("No", 33.33)]
    (by rw [analyze_exData_eval]; exact List.mem_cons_self _ _)

/-- C9 amended: every percentage stored in the trend map is nonnegative
and belongs to an answer occurring in at least one non-missing row of its
period, but strict positivity fails: a stored percentage rounds to 0.00
when the answer share is below 0.005 percent. -/
theorem analyze_percentages_nonneg
    (data : List (String × DataFrame)) (q month : String)
    (inner : List (String × ℚ))
    (h : (month, inner) ∈ analyze_question_trends data q) :
    ∀ v p, (v, p) ∈ inner → 0 ≤ p ∧
      ∃ df, (month, df) ∈ data ∧ v ∈ dropna (df.getCol q) := by
  obtain ⟨df, hmem, hcol, hpos, rfl⟩ := (analyze_mem_iff data q month inner).mp h
  intro v p hvp
  obtain ⟨vc, hvc, heq⟩ := List.mem_map.mp hvp
  rw [Prod.mk.injEq] at heq
  obtain ⟨hv, hp⟩ := heq
  subst hv
  subst hp
  constructor
  · refine round2_nonneg _ ?_
    positivity
  · refine ⟨df, hmem, ?_⟩
    rw [value_counts] at hvc
    obtain ⟨u, hu, hueq⟩ := List.mem_map.mp hvc
    have hu1 : u = vc.1 := by
      rw [← hueq]
    rw [← hu1]
    exact (mem_distinctVals u _).mp hu

/-- Witness for C9 amended at the Yes entry of the January period. -/
theorem analyze_percentages_nonneg_witness :
    0 ≤ (66.67 : ℚ) ∧
      ∃ df, ("January", df) ∈ exData ∧ "Yes" ∈ dropna (df.getCol "Q") :=
  analyze_percentages_nonneg exData "Q" "January" [("Yes", 66.67), ("No", 33.33)]
    (by rw [analyze_exData_eval]; exact List.mem_cons_self _ _)
    "Yes" 66.67 (List.mem_cons_self _ _)

/-- C9 counterexample: with twenty thousand copies of one answer and a
single copy of another, the rare answer appears in the trend map with
percentage 0, refuting strict positivity of stored percentages. -/
theorem trend_zero_percentage :
    ∃ inner, ("M", inner) ∈ analyze_question_trends exDataZero "Q" ∧
      ∃ p, ("B", p) ∈ inner ∧ ¬ 0 < p := by
  refine ⟨_, (analyze_mem_iff exDataZero "Q" "M" _).mpr
    ⟨dfZero, List.mem_singleton.mpr rfl, by decide,
     by rw [dfZero_len]; norm_num, rfl⟩, ?_⟩
  rw [value_counts_dfZero, dfZero_len]
  refine ⟨round2 (((1:ℕ) : ℚ) / ((20001 : ℕ) : ℚ) * 100), by simp, ?_⟩
  have h0 : round2 (((1:ℕ) : ℚ) / ((20001 : ℕ) : ℚ) * 100) = 0 := by
    rw [round2_of_bounds _ 0 (by norm_num) (by norm_num)]
    norm_num
  rw [h0]
  norm_num

theorem dictInsert_mem_fst (m : List (String × DataFrame)) (k k' : String)
    (v : DataFrame) :
    k' ∈ (dictInsert m k v).map Prod.fst ↔ k' = k ∨ k' ∈ m.map Prod.fst := by
  induction m with
  | nil => simp [dictInsert]
  | cons p rest ih =>
    obtain ⟨pk, pv⟩ := p
    by_cases h : k = pk
    · subst h
      simp [dictInsert]
    · simp [dictInsert, h, ih]
      tauto

theorem dictInsert_mem (m : List (String × DataFrame)) (k k' : String)
    (v v' : DataFrame) :
    (k', v') ∈ dictInsert m k v → (k' = k ∧ v' = v) ∨ (k', v') ∈ m := by
  induction m with
  | nil =>
    intro h
    simp [dictInsert] at h
    exact Or.inl h
  | cons p rest ih =>
    intro h
    obtain ⟨pk, pv⟩ := p
    rw [show dictInsert ((pk, pv) :: rest) k v =
      if k = pk then (k, v) :: rest else (pk, pv) :: dictInsert rest k v
      from rfl] at h
    by_cases hk : k = pk
    · rw [if_pos hk] at h
      rcases List.mem_cons.mp h with h | h
      · rw [Prod.mk.injEq] at h
        exact Or.inl h
      · exact Or.inr (List.mem_cons.mpr (Or.inr h))
    · rw [if_neg hk] at h
      rcases List.mem_cons.mp h with h | h
      · exact Or.inr (List.mem_cons.mpr (Or.inl h))
      · rcases ih h with h' | h'
        · exact Or.inl h'
        · exact Or.inr (List.mem_cons.mpr (Or.inr h'))

theorem loadLoop_snd (l : List (String × Option DataFrame)) :
    ∀ acc errs, (loadLoop acc errs l).2 =
      errs ++ (l.filter (fun p => p.2 = none)).map Prod.fst := by
  induction l with
  | nil =>
    intro acc errs
    simp [loadLoop]
  | cons p rest ih =>
    intro acc errs
    obtain ⟨file, pd⟩ := p
    cases pd with
    | none => simp [loadLoop, ih, List.filter_cons]
    | some df => simp [loadLoop, ih, List.filter_cons]

theorem loadLoop_keys (l : List (String × Option DataFrame)) :
    ∀ acc errs k, k ∈ (loadLoop acc errs l).1.map Prod.fst ↔
      k ∈ acc.map Prod.fst ∨ ∃ f df, (f, some df) ∈ l ∧ firstToken f = k := by
  induction l with
  | nil =>
    intro acc errs k
    simp [loadLoop]
  | cons p rest ih =>
    intro acc errs k
    obtain ⟨file, pd⟩ := p
    cases pd with
    | none =>
      rw [show loadLoop acc errs ((file, none) :: rest) =
        loadLoop acc (errs ++ [file]) rest from rfl, ih]
      simp
    | some df =>
      rw [show loadLoop acc errs ((file, some df) :: rest) =
        loadLoop (dictInsert acc (firstToken file) df) errs rest from rfl, ih,
        dictInsert_mem_fst]
      constructor
      · rintro ((h | h) | ⟨f, df', hmem, htok⟩)
        · exact Or.inr ⟨file, df, List.mem_cons_self _ _, h.symm⟩
        · exact Or.inl h
        · exact Or.inr ⟨f, df', List.mem_cons.mpr (Or.inr hmem), htok⟩
      · rintro (h | ⟨f, df', hmem, htok⟩)
        · exact Or.inl (Or.inr h)
        · rcases List.mem_cons.mp hmem with h' | h'
          · rw [Prod.mk.injEq, Option.some.injEq] at h'
            exact Or.inl (Or.inl (htok ▸ h'.1 ▸ rfl))
          · exact Or.inr ⟨f, df', h', htok⟩

theorem loadLoop_entries (l : List (String × Option DataFrame)) :
    ∀ acc errs k df, (k, df) ∈ (loadLoop acc errs l).1 →
      (k, df) ∈ acc ∨ ∃ f, (f, some df) ∈ l ∧ k = firstToken f := by
  induction l with
  | nil =>
    intro acc errs k df h
    exact Or.inl h
  | cons p rest ih =>
    intro acc errs k df h
    obtain ⟨file, pd⟩ := p
    cases pd with
    | none =>
      rcases ih acc (errs ++ [file]) k df h with h' | ⟨f, hf, htok⟩
      · exact Or.inl h'
      · exact Or.inr ⟨f, List.mem_cons.mpr (Or.inr hf), htok⟩
    | some df' =>
      rcases ih (dictInsert acc (firstToken file) df') errs k df h with
        h' | ⟨f, hf, htok⟩
      · rcases dictInsert_mem acc (firstToken file) k df' df h' with ⟨hk, hv⟩ | hm
        · exact Or.inr ⟨file, by rw [hv]; exact List.mem_cons_self _ _, hk⟩
        · exact Or.inl hm
      · exact Or.inr ⟨f, List.mem_cons.mpr (Or.inr hf), htok⟩

/-- C6: for every directory listing, the loader reports exactly the
matching files whose parse fails (in order), keeps an entry keyed by the
first filename token for every matching file that parses, and in the
particular case of one parsed and one failing matching file returns a
one-entry mapping plus the single reported failure; totality of the
embedded loader models that the caught per-file failure never propagates
out of it. -/
theorem load_retrospective_data_error_handling
    (dir : List (String × Option DataFrame)) :
    (load_retrospective_data dir).2 =
      ((excel_files dir).filter (fun p => p.2 = none)).map Prod.fst
    ∧ (∀ f df, (f, some df) ∈ excel_files dir →
        firstToken f ∈ (load_retrospective_data dir).1.map Prod.fst)
    ∧ (∀ f1 df f2, excel_files dir = [(f1, some df), (f2, none)] →
        (load_retrospective_data dir).1 = [(firstToken f1, df)] ∧
        (load_retrospective_data dir).2 = [f2]) := by
  refine ⟨?_, ?_, ?_⟩
  · rw [load_retrospective_data, loadLoop_snd]
    simp
  · intro f df hmem
    rw [load_retrospective_data]
    exact (loadLoop_keys _ _ _ _).mpr (Or.inr ⟨f, df, hmem, rfl⟩)
  · intro f1 df f2 heq
    rw [load_retrospective_data, heq]
    exact ⟨rfl, rfl⟩

/-- Witness for C6 at the example directory holding one parsing matching
file, one failing matching file and one ignored file. -/
theorem load_retrospective_data_error_handling_witness :
    (load_retrospective_data exDir).1 =
      [(firstToken "January Retrospective.xlsx", dfOk)] ∧
    (load_retrospective_data exDir).2 = ["March Retrospective.xlsx"] :=
  (load_retrospective_data_error_handling exDir).2.2
    "January Retrospective.xlsx" dfOk "March Retrospective.xlsx" (by decide)

/-- C7: the loader behaves as if given only the files whose name ends in
the spreadsheet extension and contains the marker substring, every loaded
entry originates from such a file and is keyed by the first
whitespace-delimited token of its name, and when two selected files share
that token the later-processed file silently overwrites the earlier
entry. -/
theorem load_retrospective_data_selection
    (dir : List (String × Option DataFrame)) (f1 f2 : String)
    (df1 df2 : DataFrame)
    (h1 : (endswith f1 ".xlsx" && strContains f1 "Retrospective") = true)
    (h2 : (endswith f2 ".xlsx" && strContains f2 "Retrospective") = true)
    (htok : firstToken f1 = firstToken f2) :
    load_retrospective_data dir = load_retrospective_data (excel_files dir)
    ∧ (∀ k df, (k, df) ∈ (load_retrospective_data dir).1 →
        ∃ f, (f, some df) ∈ dir ∧
          (endswith f ".xlsx" && strContains f "Retrospective") = true ∧
          k = firstToken f)
    ∧ load_retrospective_data [(f1, some df1), (f2, some df2)] =
        ([(firstToken f2, df2)], []) := by
  refine ⟨?_, ?_, ?_⟩
  · rw [load_retrospective_data, load_retrospective_data]
    have hidem : excel_files (excel_files dir) = excel_files dir := by
      rw [excel_files, excel_files, List.filter_filter]
      exact (List.filter_congr fun a _ => (Bool.and_self _).symm).symm
    rw [hidem]
  · intro k df hk
    rw [load_retrospective_data] at hk
    rcases loadLoop_entries _ [] [] k df hk with h | ⟨f, hf, rfl⟩
    · simp at h
    · obtain ⟨hdir, hpred⟩ := List.mem_filter.mp hf
      exact ⟨f, hdir, hpred, rfl⟩
  · rw [load_retrospective_data]
    have hexcel : excel_files [(f1, some df1), (f2, some df2)] =
        [(f1, some df1), (f2, some df2)] := by
      rw [excel_files, List.filter_cons, List.filter_cons]
      simp [h1, h2]
    rw [hexcel]
    simp [loadLoop, dictInsert, htok]

/-- Witness for C7 at a pair of matching filenames sharing the token
January. -/
theorem load_retrospective_data_selection_witness :
    load_retrospective_data
        [("January Retrospective.xlsx", some dfOk),
         ("January Retrospective v2.xlsx", some dfJan)] =
      ([(firstToken "January Retrospective v2.xlsx", dfJan)], []) :=
  (load_retrospective_data_selection exDir "January Retrospective.xlsx"
    "January Retrospective v2.xlsx" dfOk dfJan
    (by decide) (by decide) (by decide)).2.2

/-- C8: the intended categorization, modelled from the spec because the
Other bucket of the source dict literal is malformed (it reads
question_categories inside its own defining expression and its brackets
are unbalanced), assigns a column matching no named bucket to Other; at
the failing input Random question every named source bucket is empty, so
the claimed partition is unachievable by the source expression. -/
theorem question_categories_intended_partition :
    (named_question_categories ["Random question"]).all
      (fun nb => nb.2.isEmpty) = true ∧
    (question_categories_intended ["Random question"]).lookup "Other" =
      some ["Random question"] := by
  decide

end Retro
